import Mathlib

/-!
Verification of the batched GPU Kalman-filter kernels of
`cusignal/estimation/_filters.py`.

The two CUDA kernels (predict, update) are embedded shallowly, per filter
instance, in exact rational arithmetic.  A thread block is a `dim_x × dim_x`
tile of threads; the kernels proceed in phases separated by `syncthreads`
barriers.  We model each barrier-delimited phase as a simultaneous step: every
read inside a phase observes the state left by the previous phase, and the
writes of a phase are applied together at its end.  Shared-memory tiles are
flat rational buffers; slots never written retain the arbitrary initial
contents they had at kernel entry, which the model keeps as explicit inputs
(the `sA0`, `sB0`, `sK0`, ... fields), since the source kernels do read some
never-written slots for some specializations.

Machine floating point is replaced by `ℚ` ("exact arithmetic", as the claims
under test are phrased), except where a claim is specifically about the
floating-point storage type, which is modelled at the type level.
-/

/-- Flat shared-memory (or flat global) buffer of rationals. -/
abbrev Buf : Type := ℕ → ℚ

/-- A per-instance matrix of one batched buffer, as a curried function. -/
abbrev Mat : Type := ℕ → ℕ → ℚ

/-- A per-instance vector of one batched buffer. -/
abbrev Vec : Type := ℕ → ℚ

/-- Dot product of length `d`, the kernels' `for j in range(d): temp += ...`
accumulation loop. -/
def dot (d : ℕ) (f g : ℕ → ℚ) : ℚ := ∑ j ∈ Finset.range d, f j * g j

/-- Result of a barrier-delimited phase in which thread `(r, c)` of a
`w × h` tile writes `val r c` to flat slot `r * h + c` of a shared buffer:
slots inside the written region take the writing thread's value, all other
slots keep their previous contents `old`. -/
def writeGrid (w h : ℕ) (val : ℕ → ℕ → ℚ) (old : Buf) : Buf :=
  fun k => if k < w * h then val (k / h) (k % h) else old k

theorem idx_div {d : ℕ} (i j : ℕ) (hj : j < d) : (i * d + j) / d = i := by
  have hd : 0 < d := lt_of_le_of_lt (Nat.zero_le j) hj
  rw [mul_comm, Nat.mul_add_div hd, Nat.div_eq_of_lt hj, add_zero]

theorem idx_mod {d : ℕ} (i j : ℕ) (hj : j < d) : (i * d + j) % d = j := by
  rw [mul_comm, Nat.mul_add_mod, Nat.mod_eq_of_lt hj]

theorem idx_lt {w h : ℕ} {r c : ℕ} (hr : r < w) (hc : c < h) :
    r * h + c < w * h := by
  calc r * h + c < r * h + h := Nat.add_lt_add_left hc _
  _ = (r + 1) * h := by ring
  _ ≤ w * h := Nat.mul_le_mul_right h (Nat.succ_le_of_lt hr)

/-- Reading back an in-region slot of a phase's output. -/
theorem writeGrid_read {w h : ℕ} (val : ℕ → ℕ → ℚ) (old : Buf) {r c : ℕ}
    (hr : r < w) (hc : c < h) : writeGrid w h val old (r * h + c) = val r c := by
  unfold writeGrid
  rw [if_pos (idx_lt hr hc), idx_div r c hc, idx_mod r c hc]

/-- Reading a slot beyond the written region returns the previous contents. -/
theorem writeGrid_out {w h : ℕ} (val : ℕ → ℕ → ℚ) (old : Buf) {k : ℕ}
    (hk : ¬ k < w * h) : writeGrid w h val old k = old k := by
  unfold writeGrid
  rw [if_neg hk]

/-! ## Predict kernel

Global buffers of one call of `_numba_predict` / `_cupy_predict`, restricted
to one filter instance (one `z_idx` of the grid-stride loop; instances do not
share any data, only the block barrier). -/

structure PredIn where
  dx : ℕ
  alpha_sq : ℚ
  x : Vec
  F : Mat
  P : Mat
  Q : Mat
  /-- contents of the shared tile `s_A` at kernel entry (never read back
  before being written, kept for fidelity of the staging model) -/
  sA0 : Buf
  /-- contents of the shared tile `s_F` at kernel entry -/
  sF0 : Buf

/-- Global buffers mutated (or not) by one predict call. -/
structure PredGlobals where
  alpha_sq : ℚ
  x : Vec
  F : Mat
  P : Mat
  Q : Mat

namespace NumbaPredict

/-- Staging phase: `s_F[xx_idx + x_key] = F[z_idx, x, y]`, then barrier. -/
def s_F (u : PredIn) : Buf := writeGrid u.dx u.dx u.F u.sF0

/-- State propagation by the `y == 0` column of threads:
`x_in[z_idx, x, 0] = Σ_j s_F[x*dim_x+j] * x_in[z_idx, j, 0]`.  All reads of
`x_in` in this phase observe the pre-call state vector. -/
def newX (u : PredIn) : Vec :=
  fun i => if i < u.dx then dot u.dx (fun j => s_F u (i * u.dx + j)) u.x else u.x i

/-- Phase computing `s_A[xx_idx + x_key] = Σ_j s_F[x*dim_x+j] * P[z_idx, j, y]` (that is,
`F·P`), then barrier. -/
def s_A (u : PredIn) : Buf :=
  writeGrid u.dx u.dx
    (fun r c => dot u.dx (fun j => s_F u (r * u.dx + j)) (fun j => u.P j c)) u.sA0

/-- Final phase: `P[z_idx, x, y] = alpha_sq * Σ_j s_A[x*dim_x+j] *
s_F[y*dim_x+j] + Q[z_idx, x, y]`. -/
def newP (u : PredIn) : Mat :=
  fun r c =>
    if r < u.dx ∧ c < u.dx then
      u.alpha_sq * dot u.dx (fun j => s_A u (r * u.dx + j)) (fun j => s_F u (c * u.dx + j))
        + u.Q r c
    else u.P r c

/-- One `_numba_predict` call as a transformation of the global buffers:
only `x_in` and `P` are ever assigned by the kernel body. -/
def run (u : PredIn) : PredGlobals :=
  { alpha_sq := u.alpha_sq, x := newX u, F := u.F, P := newP u, Q := u.Q }

end NumbaPredict

namespace CupyPredict

/-- Staging: `s_F[xx_idx + ty*DIM_X+tx] = F[tid_z*DIM_X*DIM_X + ty*DIM_X + tx]`
(row `ty`, column `tx`), then barrier. -/
def s_F (u : PredIn) : Buf := writeGrid u.dx u.dx u.F u.sF0

/-- Threads with `tx == 0`: `x_in[ty] = Σ_j s_F[ty*DIM_X+j] * x_in[j]`. -/
def newX (u : PredIn) : Vec :=
  fun i => if i < u.dx then dot u.dx (fun j => s_F u (i * u.dx + j)) u.x else u.x i

/-- Phase computing `s_A[ty*DIM_X+tx] = Σ_j s_F[ty*DIM_X+j] * P[j*DIM_X+tx]`, then barrier. -/
def s_A (u : PredIn) : Buf :=
  writeGrid u.dx u.dx
    (fun r c => dot u.dx (fun j => s_F u (r * u.dx + j)) (fun j => u.P j c)) u.sA0

/-- Final phase: `P[ty*DIM_X+tx] = alpha2 * Σ_j s_A[ty*DIM_X+j] * s_F[tx*DIM_X+j] + localQ`. -/
def newP (u : PredIn) : Mat :=
  fun r c =>
    if r < u.dx ∧ c < u.dx then
      u.alpha_sq * dot u.dx (fun j => s_A u (r * u.dx + j)) (fun j => s_F u (c * u.dx + j))
        + u.Q r c
    else u.P r c

/-- One `_cupy_predict` call as a transformation of the global buffers. -/
def run (u : PredIn) : PredGlobals :=
  { alpha_sq := u.alpha_sq, x := newX u, F := u.F, P := newP u, Q := u.Q }

end CupyPredict

/-- Reference matrix product with inner dimension `n` (row-major semantics of
the specification formulas). -/
def matMul (n : ℕ) (A B : Mat) : Mat := fun r c => ∑ j ∈ Finset.range n, A r j * B j c

/-- Reference transpose. -/
def matT (A : Mat) : Mat := fun r c => A c r

/-! ## Update kernel

Global buffers and entry-time shared contents of one `_numba_update` /
`_cupy_update` call, restricted to one filter instance. -/

structure UpdIn where
  dx : ℕ
  dz : ℕ
  x : Vec
  z : Vec
  H : Mat
  P : Mat
  R : Mat
  /-- entry contents of `s_A` (read back at slots `x*dim_z+j`, `j ≥ 2`,
  when `dim_z = 3`; see the gain phase) -/
  sA0 : Buf
  /-- entry contents of `s_B` (read back by the inverse when `dim_z = 1`) -/
  sB0 : Buf
  /-- entry contents of `s_K` (read back at the never-written gain columns
  `j ≥ 2` when `dim_z = 3`) -/
  sK0 : Buf
  /-- entry contents of `s_P` -/
  sP0 : Buf
  /-- entry contents of `s_H` -/
  sH0 : Buf
  /-- entry contents of `s_R` -/
  sR0 : Buf
  /-- entry contents of `s_y` -/
  sy0 : Buf

/-- Global buffers mutated (or not) by one update call. -/
structure UpdGlobals where
  x : Vec
  z : Vec
  H : Mat
  P : Mat
  R : Mat

/-- Checkerboard sign `1 if (x + y) % 2 == 0 else -1` of both inverse
routines. -/
def invSign (r c : ℕ) : ℚ := if (r + c) % 2 = 0 then 1 else -1

/-- The in-place inverse of `_numba_update` (its body is hardcoded to the
2×2 adjugate formula whatever `dim_z` is): thread `(x, y)` computes
`s_B[(dim_z-1-x)*dim_z + (dim_z-1-y)] / (sign * (s_B[0]*s_B[dim_z+1] -
s_B[dim_z]*s_B[1]))`.  All threads read the pre-phase `s_B`. -/
def numbaInverse (dz : ℕ) (sB : Buf) (r c : ℕ) : ℚ :=
  sB ((dz - 1 - r) * dz + (dz - 1 - c)) /
    (invSign r c * (sB (0 * dz + 0) * sB (1 * dz + 1) - sB (1 * dz + 0) * sB (0 * dz + 1)))

/-- The templated `inverse` device function of the CuPy raw kernel, called by
thread `(tx, ty)`; `DIM_Z == 2` and `DIM_Z == 3` use closed cofactor
formulas, any other `DIM_Z` leaves `temp` at its zero initialization and
returns it. -/
def cupyInverse (dz : ℕ) (sB : Buf) (tx ty : ℕ) : ℚ :=
  if dz = 2 then
    sB (((tx + 1) % dz) * dz + ((ty + 1) % dz)) /
      ((sB (0 * dz + 0) * sB (1 * dz + 1) - sB (1 * dz + 0) * sB (0 * dz + 1)) * invSign tx ty)
  else if dz = 3 then
    (sB (((tx + 1) % dz) * dz + ((ty + 1) % dz)) * sB (((tx + 2) % dz) * dz + ((ty + 2) % dz))
      - sB (((tx + 1) % dz) * dz + ((ty + 2) % dz)) * sB (((tx + 2) % dz) * dz + ((ty + 1) % dz))) /
    ((∑ i ∈ Finset.range dz,
        sB (0 * dz + i) * (sB (1 * dz + ((i + 1) % dz)) * sB (2 * dz + ((i + 2) % dz))
          - sB (1 * dz + ((i + 2) % dz)) * sB (2 * dz + ((i + 1) % dz)))) * invSign tx ty)
  else 0

namespace NumbaUpdate

/-- Staging of `P`: `s_P[xx_idx + x_key] = P[z_idx, x, y]`. -/
def sPs (u : UpdIn) : Buf := writeGrid u.dx u.dx u.P u.sP0

/-- Staging of `H` by threads with `x < dim_z`:
`s_H[xz_idx + x*dim_x+y] = H[z_idx, x, y]`. -/
def sHs (u : UpdIn) : Buf := writeGrid u.dz u.dx u.H u.sH0

/-- Staging of `R` by threads with `x < dim_z, y < dim_z`:
`s_R[zz_idx + x*dim_z+y] = R[z_idx, x, y]`; then barrier. -/
def sRs (u : UpdIn) : Buf := writeGrid u.dz u.dz u.R u.sR0

/-- Innovation, threads `x < dim_z, y == 0`:
`s_y[x] = z_in[z_idx,x,0] - Σ_j s_H[x*dim_x+j] * x_in[z_idx,j,0]`. -/
def sy1 (u : UpdIn) : Buf :=
  writeGrid u.dz 1 (fun r _ => u.z r - dot u.dx (fun j => sHs u (r * u.dx + j)) u.x) u.sy0

/-- Phase computing `PHᵗ`, threads `y < dim_z`:
`s_A[xx_idx + x*dim_z+y] = Σ_j s_P[x*dim_x+j] * s_H[y*dim_x+j]`; barrier. -/
def sA1 (u : UpdIn) : Buf :=
  writeGrid u.dx u.dz
    (fun r c => dot u.dx (fun j => sPs u (r * u.dx + j)) (fun j => sHs u (c * u.dx + j)))
    u.sA0

/-- Innovation covariance, threads `x < dim_z, y < dim_z`:
`s_B[x*dim_z+y] = Σ_j s_H[x*dim_x+j] * s_A[j*dim_z+y] + s_R[x*dim_z+y]`;
barrier. -/
def sB2 (u : UpdIn) : Buf :=
  writeGrid u.dz u.dz
    (fun r c => dot u.dx (fun j => sHs u (r * u.dx + j)) (fun j => sA1 u (j * u.dz + c))
      + sRs u (r * u.dz + c))
    u.sB0

/-- In-place inversion of `S` by threads `x < dim_z, y < dim_z` (each thread
reads the pre-phase `s_B` and overwrites its own slot); barrier. -/
def sB3 (u : UpdIn) : Buf :=
  writeGrid u.dz u.dz (fun r c => numbaInverse u.dz (sB2 u) r c) (sB2 u)

/-- Kalman gain, threads gated by `y < 2` (not `y < dim_z`):
`s_K[x*dim_z+y] = Σ_j s_A[x*dim_z+j] * s_B[y*dim_z+j]`; barrier.  Every
thread of the `dim_x × dim_x` tile with `y < 2` stores to flat slot
`x*dim_z+y`; for `dim_z = 1` the slot does not determine the writing thread
(threads `(x, 1)` and `(x+1, 0)` collide), and this phase-result function
resolves each in-range slot to the value of the thread whose coordinates the
slot decodes to, i.e. the one with `y < dim_z`.  The write events themselves
are modelled separately by `gainWriteEvents`. -/
def sK4 (u : UpdIn) : Buf :=
  fun k =>
    if k < u.dx * u.dz ∧ k % u.dz < 2 then
      dot u.dz (fun j => sA1 u ((k / u.dz) * u.dz + j)) (fun j => sB3 u ((k % u.dz) * u.dz + j))
    else u.sK0 k

/-- State correction, threads `y == 0`:
`x_in[z_idx,x,0] += Σ_j s_K[x*dim_z+j] * s_y[j]`. -/
def newX (u : UpdIn) : Vec :=
  fun i =>
    if i < u.dx then
      u.x i + dot u.dz (fun j => sK4 u (i * u.dz + j)) (fun j => sy1 u j)
    else u.x i

/-- Phase computing `I - KH`, every thread:
`s_A[x*dim_x+y] = (1 if x == y else 0) - Σ_j s_K[x*dim_z+j] * s_H[j*dim_x+y]`;
barrier. -/
def sA5 (u : UpdIn) : Buf :=
  writeGrid u.dx u.dx
    (fun r c => (if r = c then (1 : ℚ) else 0)
      - dot u.dz (fun j => sK4 u (r * u.dz + j)) (fun j => sHs u (j * u.dx + c)))
    (sA1 u)

/-- Phase computing `(I-KH)·P`, every thread:
`s_B[x*dim_x+y] = Σ_j s_A[x*dim_x+j] * s_P[j*dim_x+y]`; barrier. -/
def sB6 (u : UpdIn) : Buf :=
  writeGrid u.dx u.dx
    (fun r c => dot u.dx (fun j => sA5 u (r * u.dx + j)) (fun j => sPs u (j * u.dx + c)))
    (sB3 u)

/-- Per-thread register `temp` after the Joseph product phase:
`Σ_j s_B[x*dim_x+j] * s_A[y*dim_x+j]`, i.e. `((I-KH)·P·(I-KH)ᵗ)[x,y]`,
carried across the next barrier in a register. -/
def josephTemp (u : UpdIn) (r c : ℕ) : ℚ :=
  dot u.dx (fun j => sB6 u (r * u.dx + j)) (fun j => sA5 u (c * u.dx + j))

/-- Phase computing `K·R`: threads with `y < dim_z` accumulate
`temp2 = Σ_j s_K[x*dim_z+j] * s_R[j*dim_z+y]`, and the (unguarded) store
`s_A[x*dim_z+y] = temp2` follows; threads with `y ≥ dim_z` store their zero
`temp2` to the aliased slot `x*dim_z+y`, and as in `sK4` each in-range slot
resolves to the thread it decodes to (the one with `y < dim_z`); barrier. -/
def sA7 (u : UpdIn) : Buf :=
  writeGrid u.dx u.dz
    (fun r c => dot u.dz (fun j => sK4 u (r * u.dz + j)) (fun j => sRs u (j * u.dz + c)))
    (sA5 u)

/-- Final write-back:
`P[z_idx,x,y] = temp + Σ_j s_A[x*dim_z+j] * s_K[y*dim_z+j]`, i.e. the Joseph
register plus `(K·R·Kᵗ)[x,y]`. -/
def newP (u : UpdIn) : Mat :=
  fun r c =>
    if r < u.dx ∧ c < u.dx then
      josephTemp u r c + dot u.dz (fun j => sA7 u (r * u.dz + j)) (fun j => sK4 u (c * u.dz + j))
    else u.P r c

/-- One `_numba_update` call as a transformation of the global buffers: only
`x_in` and `P` are ever assigned by the kernel body. -/
def run (u : UpdIn) : UpdGlobals :=
  { x := newX u, z := u.z, H := u.H, P := newP u, R := u.R }

/-- The raw write events of the Kalman-gain phase: one `(slot, value)` pair
per thread `(x, y)` of the tile that passes the `y < 2` gate, writing
`s_K[x*dim_z + y] = Σ_j s_A[x*dim_z+j] * s_B[y*dim_z+j]`. -/
def gainWriteEvents (u : UpdIn) : List (ℕ × ℚ) :=
  (List.range u.dx).flatMap fun x =>
    ((List.range u.dx).filter (fun y => y < 2)).map fun y =>
      (x * u.dz + y,
        dot u.dz (fun j => sA1 u (x * u.dz + j)) (fun j => sB3 u (y * u.dz + j)))

/-- The write events the specification's generalized gate `col < dim_z`
would produce. -/
def gainWriteEventsSpecGate (u : UpdIn) : List (ℕ × ℚ) :=
  (List.range u.dx).flatMap fun x =>
    ((List.range u.dx).filter (fun y => y < u.dz)).map fun y =>
      (x * u.dz + y,
        dot u.dz (fun j => sA1 u (x * u.dz + j)) (fun j => sB3 u (y * u.dz + j)))

end NumbaUpdate

namespace CupyUpdate

/-- Staging of `P`: `s_P[xx_idx + ty*DIM_X+tx] = P[tid_z*DIM_X*DIM_X +
ty*DIM_X + tx]` (row `ty`, column `tx`). -/
def sPs (u : UpdIn) : Buf := writeGrid u.dx u.dx u.P u.sP0

/-- Staging of `H` by threads with `ty < DIM_Z`:
`s_H[ty*DIM_X+tx] = H[ty*DIM_X+tx]`. -/
def sHs (u : UpdIn) : Buf := writeGrid u.dz u.dx u.H u.sH0

/-- Staging of `R` by threads with `ty < DIM_Z, tx < DIM_Z`; then barrier. -/
def sRs (u : UpdIn) : Buf := writeGrid u.dz u.dz u.R u.sR0

/-- Innovation, threads `tx == 0, ty < DIM_Z`:
`s_y[ty] = z_in[ty] - Σ_j s_H[ty*DIM_X+j] * x_in[j]`. -/
def sy1 (u : UpdIn) : Buf :=
  writeGrid u.dz 1 (fun r _ => u.z r - dot u.dx (fun j => sHs u (r * u.dx + j)) u.x) u.sy0

/-- Phase computing `PHᵗ`, threads `tx < DIM_Z`:
`s_A[ty*DIM_Z+tx] = Σ_j s_P[ty*DIM_X+j] * s_H[tx*DIM_X+j]`; barrier. -/
def sA1 (u : UpdIn) : Buf :=
  writeGrid u.dx u.dz
    (fun r c => dot u.dx (fun j => sPs u (r * u.dx + j)) (fun j => sHs u (c * u.dx + j)))
    u.sA0

/-- Innovation covariance, threads `tx < DIM_Z, ty < DIM_Z`:
`s_B[ty*DIM_Z+tx] = Σ_j s_H[ty*DIM_X+j] * s_A[j*DIM_Z+tx] + s_R[ty*DIM_Z+tx]`;
barrier. -/
def sB2 (u : UpdIn) : Buf :=
  writeGrid u.dz u.dz
    (fun r c => dot u.dx (fun j => sHs u (r * u.dx + j)) (fun j => sA1 u (j * u.dz + c))
      + sRs u (r * u.dz + c))
    u.sB0

/-- In-place inversion of `S` by threads `tx < DIM_Z, ty < DIM_Z`:
`s_B[ty*DIM_Z+tx] = inverse<T, DIM_Z>(xx_idx, tx, ty, s_B)` (each thread
reads the pre-phase `s_B`); barrier. -/
def sB3 (u : UpdIn) : Buf :=
  writeGrid u.dz u.dz (fun r c => cupyInverse u.dz (sB2 u) c r) (sB2 u)

/-- Kalman gain, threads gated by `tx < 2` (not `tx < DIM_Z`):
`s_K[ty*DIM_Z+tx] = Σ_j s_A[ty*DIM_Z+j] * s_B[tx*DIM_Z+j]`; barrier.  As in
`NumbaUpdate.sK4`, each in-range slot resolves to the thread it decodes to. -/
def sK4 (u : UpdIn) : Buf :=
  fun k =>
    if k < u.dx * u.dz ∧ k % u.dz < 2 then
      dot u.dz (fun j => sA1 u ((k / u.dz) * u.dz + j)) (fun j => sB3 u ((k % u.dz) * u.dz + j))
    else u.sK0 k

/-- State correction, threads `tx == 0`:
`x_in[ty] += Σ_j s_K[ty*DIM_Z+j] * s_y[j]`. -/
def newX (u : UpdIn) : Vec :=
  fun i =>
    if i < u.dx then
      u.x i + dot u.dz (fun j => sK4 u (i * u.dz + j)) (fun j => sy1 u j)
    else u.x i

/-- Phase computing `I - KH`, every thread:
`s_A[ty*DIM_X+tx] = ((tx == ty) ? 1 : 0) - Σ_j s_K[ty*DIM_Z+j] *
s_H[j*DIM_X+tx]`; barrier. -/
def sA5 (u : UpdIn) : Buf :=
  writeGrid u.dx u.dx
    (fun r c => (if r = c then (1 : ℚ) else 0)
      - dot u.dz (fun j => sK4 u (r * u.dz + j)) (fun j => sHs u (j * u.dx + c)))
    (sA1 u)

/-- Phase computing `(I-KH)·P`, every thread:
`s_B[ty*DIM_X+tx] = Σ_j s_A[ty*DIM_X+j] * s_P[j*DIM_X+tx]`; barrier. -/
def sB6 (u : UpdIn) : Buf :=
  writeGrid u.dx u.dx
    (fun r c => dot u.dx (fun j => sA5 u (r * u.dx + j)) (fun j => sPs u (j * u.dx + c)))
    (sB3 u)

/-- Joseph product phase, stored back over the staged `s_P` (unlike the Numba
kernel, which keeps it in a register):
`s_P[ty*DIM_X+tx] = Σ_j s_B[ty*DIM_X+j] * s_A[tx*DIM_X+j]`. -/
def sP7 (u : UpdIn) : Buf :=
  writeGrid u.dx u.dx
    (fun r c => dot u.dx (fun j => sB6 u (r * u.dx + j)) (fun j => sA5 u (c * u.dx + j)))
    (sPs u)

/-- Phase computing `K·R`: threads with `tx < DIM_Z` accumulate
`temp = Σ_j s_K[ty*DIM_Z+j] * s_R[j*DIM_Z+tx]` and the unguarded store
`s_A[ty*DIM_Z+tx] = temp` follows (threads with `tx ≥ DIM_Z` store zero to
aliased slots; each in-range slot resolves to the thread it decodes to);
barrier. -/
def sA7 (u : UpdIn) : Buf :=
  writeGrid u.dx u.dz
    (fun r c => dot u.dz (fun j => sK4 u (r * u.dz + j)) (fun j => sRs u (j * u.dz + c)))
    (sA5 u)

/-- Final write-back:
`P[ty*DIM_X+tx] = s_P[ty*DIM_X+tx] + Σ_j s_A[ty*DIM_Z+j] * s_K[tx*DIM_Z+j]`. -/
def newP (u : UpdIn) : Mat :=
  fun r c =>
    if r < u.dx ∧ c < u.dx then
      sP7 u (r * u.dx + c)
        + dot u.dz (fun j => sA7 u (r * u.dz + j)) (fun j => sK4 u (c * u.dz + j))
    else u.P r c

/-- One `_cupy_update` call as a transformation of the global buffers: only
`x_in` and `P` are ever assigned by the kernel body. -/
def run (u : UpdIn) : UpdGlobals :=
  { x := newX u, z := u.z, H := u.H, P := newP u, R := u.R }

/-- The raw write events of the Kalman-gain phase under the source's
`tx < 2` gate. -/
def gainWriteEvents (u : UpdIn) : List (ℕ × ℚ) :=
  (List.range u.dx).flatMap fun ty =>
    ((List.range u.dx).filter (fun tx => tx < 2)).map fun tx =>
      (ty * u.dz + tx,
        dot u.dz (fun j => sA1 u (ty * u.dz + j)) (fun j => sB3 u (tx * u.dz + j)))

end CupyUpdate

/-! ## Concrete-input helpers -/

/-- Matrix literal from a row list. -/
def mOf (l : List (List ℚ)) : Mat := fun r c => (l.getD r []).getD c 0

/-- Vector literal. -/
def vOf (l : List ℚ) : Vec := fun i => l.getD i 0

/-- Zero-initialized shared memory. -/
def zB : Buf := fun _ => 0

/-! ## C2: predict computes `F·x` and `alpha² · F·P·Fᵗ + Q` -/

/-- C2.  For every instance, one `predict` call overwrites `state` with
`F·state` (using only pre-call state entries: the state phase of the model
reads the unmodified input vector `u.x`) and `P` with
`alpha² · F·P·Fᵗ + Q`, entrywise on the `dim_x × dim_x` region, for both the
Numba and the CuPy kernel, for any state dimension. -/
theorem c2_predict_correct (u : PredIn) (i r c : ℕ)
    (hi : i < u.dx) (hr : r < u.dx) (hc : c < u.dx) :
    NumbaPredict.newX u i = ∑ j ∈ Finset.range u.dx, u.F i j * u.x j
    ∧ NumbaPredict.newP u r c
      = u.alpha_sq * matMul u.dx (matMul u.dx u.F u.P) (matT u.F) r c + u.Q r c
    ∧ CupyPredict.newX u i = ∑ j ∈ Finset.range u.dx, u.F i j * u.x j
    ∧ CupyPredict.newP u r c
      = u.alpha_sq * matMul u.dx (matMul u.dx u.F u.P) (matT u.F) r c + u.Q r c := by
  have hF : ∀ a b : ℕ, a < u.dx → b < u.dx →
      NumbaPredict.s_F u (a * u.dx + b) = u.F a b := by
    intro a b ha hb
    exact writeGrid_read u.F u.sF0 ha hb
  have hA : ∀ a b : ℕ, a < u.dx → b < u.dx →
      NumbaPredict.s_A u (a * u.dx + b) = matMul u.dx u.F u.P a b := by
    intro a b ha hb
    rw [NumbaPredict.s_A, writeGrid_read _ _ ha hb]
    unfold dot matMul
    refine Finset.sum_congr rfl (fun j hj => ?_)
    dsimp only
    rw [hF a j ha (Finset.mem_range.mp hj)]
  have hx : NumbaPredict.newX u i = ∑ j ∈ Finset.range u.dx, u.F i j * u.x j := by
    rw [NumbaPredict.newX, if_pos hi]
    unfold dot
    refine Finset.sum_congr rfl (fun j hj => ?_)
    dsimp only
    rw [hF i j hi (Finset.mem_range.mp hj)]
  have hP : NumbaPredict.newP u r c
      = u.alpha_sq * matMul u.dx (matMul u.dx u.F u.P) (matT u.F) r c + u.Q r c := by
    rw [NumbaPredict.newP, if_pos ⟨hr, hc⟩]
    have : dot u.dx (fun j => NumbaPredict.s_A u (r * u.dx + j))
        (fun j => NumbaPredict.s_F u (c * u.dx + j))
        = matMul u.dx (matMul u.dx u.F u.P) (matT u.F) r c := by
      unfold dot matMul matT
      refine Finset.sum_congr rfl (fun j hj => ?_)
      dsimp only
      rw [hA r j hr (Finset.mem_range.mp hj), hF c j hc (Finset.mem_range.mp hj)]
      rfl
    rw [this]
  have hxc : CupyPredict.newX u = NumbaPredict.newX u := rfl
  have hPc : CupyPredict.newP u = NumbaPredict.newP u := rfl
  exact ⟨hx, hP, by rw [hxc]; exact hx, by rw [hPc]; exact hP⟩

/-- Concrete constant-velocity input for the C2 witness. -/
def c2in : PredIn :=
  { dx := 2, alpha_sq := 1, x := vOf [1, 2], F := mOf [[1, 1], [0, 1]],
    P := mOf [[1, 0], [0, 1]], Q := mOf [[0, 0], [0, 0]], sA0 := zB, sF0 := zB }

theorem c2_predict_correct_witness :
    (0 : ℕ) < c2in.dx
    ∧ NumbaPredict.newX c2in 0 = ∑ j ∈ Finset.range c2in.dx, c2in.F 0 j * c2in.x j :=
  ⟨by decide, (c2_predict_correct c2in 0 0 1 (by decide) (by decide) (by decide)).1⟩

/-! ## C10: the kernels mutate only the state and covariance buffers -/

/-- C10.  Predict leaves `alpha²`, `F`, `Q` unmodified and update leaves
`z`, `H`, `R` unmodified, in both backends: the kernel bodies assign only to
the `x_in` and `P` globals, so the runs map every other buffer to itself. -/
theorem c10_frame_effects (p : PredIn) (u : UpdIn) :
    (NumbaPredict.run p).alpha_sq = p.alpha_sq
    ∧ (NumbaPredict.run p).F = p.F ∧ (NumbaPredict.run p).Q = p.Q
    ∧ (CupyPredict.run p).alpha_sq = p.alpha_sq
    ∧ (CupyPredict.run p).F = p.F ∧ (CupyPredict.run p).Q = p.Q
    ∧ (NumbaUpdate.run u).z = u.z ∧ (NumbaUpdate.run u).H = u.H
    ∧ (NumbaUpdate.run u).R = u.R
    ∧ (CupyUpdate.run u).z = u.z ∧ (CupyUpdate.run u).H = u.H
    ∧ (CupyUpdate.run u).R = u.R :=
  ⟨rfl, rfl, rfl, rfl, rfl, rfl, rfl, rfl, rfl, rfl, rfl, rfl⟩

/-! ## C1: the update does not implement the claimed measurement correction
for every supported dimension -/

/-- Modelled from the spec (§4.3 guarantee, specialized to `dim_z = 1`):
innovation covariance `S = H·P·Hᵗ + R`, a scalar when `dim_z = 1`. -/
def specS1 (u : UpdIn) : ℚ :=
  (∑ i ∈ Finset.range u.dx, ∑ j ∈ Finset.range u.dx, u.H 0 i * u.P i j * u.H 0 j) + u.R 0 0

/-- Modelled from the spec (§4.3 guarantee, specialized to `dim_z = 1`):
the claimed corrected state `x + K·(z - H·x)` with `K = P·Hᵗ·S⁻¹` and
`S⁻¹` the reciprocal of the scalar `S`. -/
def specX1 (u : UpdIn) : Vec := fun r =>
  u.x r + (∑ j ∈ Finset.range u.dx, u.P r j * u.H 0 j) / specS1 u
    * (u.z 0 - ∑ j ∈ Finset.range u.dx, u.H 0 j * u.x j)

/-- Failing input for C1: `dim_x = 2`, `dim_z = 1`, `x = (0,0)`, `z = (1)`,
`H = (1 0)`, `P = I`, `R = (1)`, zero-initialized shared memory.
Here `S = 2`, the true gain is `(1/2, 0)ᵗ` and the claimed corrected state is
`(1/2, 0)`. -/
def c1in : UpdIn :=
  { dx := 2, dz := 1, x := vOf [0, 0], z := vOf [1], H := mOf [[1, 0]],
    P := mOf [[1, 0], [0, 1]], R := mOf [[1]],
    sA0 := zB, sB0 := zB, sK0 := zB, sP0 := zB, sH0 := zB, sR0 := zB, sy0 := zB }

/-- C1 (code bug).  At `c1in` the specified corrected state entry is `1/2`,
but both kernels leave the state at `0`: the CuPy `inverse` template writes
`0` for `DIM_Z = 1` (its `else` branch returns the zero-initialized `temp`),
and the Numba inverse, hardcoded to the 2×2 adjugate, divides by a
determinant read from unstaged scratch slots (zero here), so both gains
vanish instead of being `P·Hᵗ·S⁻¹`. -/
theorem c1_update_dimz1_divergence :
    specX1 c1in 0 = 1 / 2
    ∧ (CupyUpdate.run c1in).x 0 = 0
    ∧ (NumbaUpdate.run c1in).x 0 = 0
    ∧ ((1 : ℚ) / 2 ≠ 0) := by
  have hdx : c1in.dx = 2 := rfl
  have hdz : c1in.dz = 1 := rfl
  have hsB0 : c1in.sB0 = zB := rfl
  have hP0 : NumbaUpdate.sPs c1in 0 = 1 := by
    rw [NumbaUpdate.sPs]; norm_num [writeGrid, hdx, c1in, mOf]
  have hP1 : NumbaUpdate.sPs c1in 1 = 0 := by
    rw [NumbaUpdate.sPs]; norm_num [writeGrid, hdx, c1in, mOf]
  have hP2 : NumbaUpdate.sPs c1in 2 = 0 := by
    rw [NumbaUpdate.sPs]; norm_num [writeGrid, hdx, c1in, mOf]
  have hP3 : NumbaUpdate.sPs c1in 3 = 1 := by
    rw [NumbaUpdate.sPs]; norm_num [writeGrid, hdx, c1in, mOf]
  have hH0 : NumbaUpdate.sHs c1in 0 = 1 := by
    rw [NumbaUpdate.sHs]; norm_num [writeGrid, hdx, hdz, c1in, mOf]
  have hH1 : NumbaUpdate.sHs c1in 1 = 0 := by
    rw [NumbaUpdate.sHs]; norm_num [writeGrid, hdx, hdz, c1in, mOf]
  have hR0 : NumbaUpdate.sRs c1in 0 = 1 := by
    rw [NumbaUpdate.sRs]; norm_num [writeGrid, hdz, c1in, mOf]
  have hA0 : NumbaUpdate.sA1 c1in 0 = 1 := by
    rw [NumbaUpdate.sA1]
    norm_num [writeGrid, dot, Finset.sum_range_succ, hdx, hdz, hP0, hP1, hH0, hH1]
  have hB2_0 : NumbaUpdate.sB2 c1in 0 = 2 := by
    have hA1 : NumbaUpdate.sA1 c1in 1 = 0 := by
      rw [NumbaUpdate.sA1]
      norm_num [writeGrid, dot, Finset.sum_range_succ, hdx, hdz, hP2, hP3, hH0, hH1]
    rw [NumbaUpdate.sB2]
    norm_num [writeGrid, dot, Finset.sum_range_succ, hdx, hdz, hA0, hA1, hH0, hH1, hR0]
  have hB2_1 : NumbaUpdate.sB2 c1in 1 = 0 := by
    rw [NumbaUpdate.sB2]; norm_num [writeGrid, hdz, hsB0, zB]
  have hB2_2 : NumbaUpdate.sB2 c1in 2 = 0 := by
    rw [NumbaUpdate.sB2]; norm_num [writeGrid, hdz, hsB0, zB]
  have hB3n : NumbaUpdate.sB3 c1in 0 = 0 := by
    rw [NumbaUpdate.sB3]
    norm_num [writeGrid, numbaInverse, invSign, hdz, hB2_0, hB2_1, hB2_2]
  have hB3c : CupyUpdate.sB3 c1in 0 = 0 := by
    rw [CupyUpdate.sB3]
    norm_num [writeGrid, cupyInverse, hdz]
  have hKn : NumbaUpdate.sK4 c1in 0 = 0 := by
    rw [NumbaUpdate.sK4]
    norm_num [dot, Finset.sum_range_succ, hdx, hdz, hA0, hB3n]
  have hKc : CupyUpdate.sK4 c1in 0 = 0 := by
    have hA0c : CupyUpdate.sA1 c1in 0 = NumbaUpdate.sA1 c1in 0 := rfl
    rw [CupyUpdate.sK4]
    norm_num [dot, Finset.sum_range_succ, hdx, hdz, hA0c, hA0, hB3c]
  refine ⟨?_, ?_, ?_, by norm_num⟩
  · rw [specX1]
    norm_num [specS1, Finset.sum_range_succ, c1in, mOf, vOf]
  · show CupyUpdate.newX c1in 0 = 0
    have hx0 : c1in.x 0 = 0 := by norm_num [c1in, vOf]
    rw [CupyUpdate.newX]
    norm_num [dot, Finset.sum_range_succ, hdx, hdz, hKc, hx0]
  · show NumbaUpdate.newX c1in 0 = 0
    have hx0 : c1in.x 0 = 0 := by norm_num [c1in, vOf]
    rw [NumbaUpdate.newX]
    norm_num [dot, Finset.sum_range_succ, hdx, hdz, hKn, hx0]

/-! ## C6: the inverse routine does not compute the reciprocal for
`dim_z = 1` -/

/-- Failing input for C6: same geometry as `c1in` but with the innovation
covariance staged as `S = (2)` (here `H = (1 0)`, `P = I`, `R = (1)`). -/
def c6in : UpdIn :=
  { dx := 2, dz := 1, x := vOf [0, 0], z := vOf [1], H := mOf [[1, 0]],
    P := mOf [[1, 0], [0, 1]], R := mOf [[1]],
    sA0 := zB, sB0 := zB, sK0 := zB, sP0 := zB, sH0 := zB, sR0 := zB, sy0 := zB }

/-- C6 (code bug).  For the `dim_z = 1` specialization with staged innovation
covariance `S = (2)` the claim demands the in-place inverse write `(1/2)`,
but the CuPy `inverse` template returns `0` (no `DIM_Z == 1` branch: `temp`
keeps its zero initialization), and the Numba routine applies the 2×2
adjugate formula whose determinant reads the unstaged scratch slots
`s_B[1]`, `s_B[2]` (zero here), likewise producing `0` in the shared slot. -/
theorem c6_inverse_dimz1_divergence :
    NumbaUpdate.sB2 c6in 0 = 2
    ∧ CupyUpdate.sB3 c6in 0 = 0
    ∧ NumbaUpdate.sB3 c6in 0 = 0
    ∧ cupyInverse 1 (fun k => if k = 0 then 2 else 0) 0 0 = 0
    ∧ ((1 : ℚ) / 2 ≠ (0 : ℚ)) := by
  have hdx : c6in.dx = 2 := rfl
  have hdz : c6in.dz = 1 := rfl
  have hsB0 : c6in.sB0 = zB := rfl
  have hP0 : NumbaUpdate.sPs c6in 0 = 1 := by
    rw [NumbaUpdate.sPs]; norm_num [writeGrid, hdx, c6in, mOf]
  have hP1 : NumbaUpdate.sPs c6in 1 = 0 := by
    rw [NumbaUpdate.sPs]; norm_num [writeGrid, hdx, c6in, mOf]
  have hP2 : NumbaUpdate.sPs c6in 2 = 0 := by
    rw [NumbaUpdate.sPs]; norm_num [writeGrid, hdx, c6in, mOf]
  have hP3 : NumbaUpdate.sPs c6in 3 = 1 := by
    rw [NumbaUpdate.sPs]; norm_num [writeGrid, hdx, c6in, mOf]
  have hH0 : NumbaUpdate.sHs c6in 0 = 1 := by
    rw [NumbaUpdate.sHs]; norm_num [writeGrid, hdx, hdz, c6in, mOf]
  have hH1 : NumbaUpdate.sHs c6in 1 = 0 := by
    rw [NumbaUpdate.sHs]; norm_num [writeGrid, hdx, hdz, c6in, mOf]
  have hR0 : NumbaUpdate.sRs c6in 0 = 1 := by
    rw [NumbaUpdate.sRs]; norm_num [writeGrid, hdz, c6in, mOf]
  have hA0 : NumbaUpdate.sA1 c6in 0 = 1 := by
    rw [NumbaUpdate.sA1]
    norm_num [writeGrid, dot, Finset.sum_range_succ, hdx, hdz, hP0, hP1, hH0, hH1]
  have hA1 : NumbaUpdate.sA1 c6in 1 = 0 := by
    rw [NumbaUpdate.sA1]
    norm_num [writeGrid, dot, Finset.sum_range_succ, hdx, hdz, hP2, hP3, hH0, hH1]
  have hB2_0 : NumbaUpdate.sB2 c6in 0 = 2 := by
    rw [NumbaUpdate.sB2]
    norm_num [writeGrid, dot, Finset.sum_range_succ, hdx, hdz, hA0, hA1, hH0, hH1, hR0]
  have hB2_1 : NumbaUpdate.sB2 c6in 1 = 0 := by
    rw [NumbaUpdate.sB2]; norm_num [writeGrid, hdz, hsB0, zB]
  have hB2_2 : NumbaUpdate.sB2 c6in 2 = 0 := by
    rw [NumbaUpdate.sB2]; norm_num [writeGrid, hdz, hsB0, zB]
  refine ⟨hB2_0, ?_, ?_, ?_, by norm_num⟩
  · rw [CupyUpdate.sB3]
    norm_num [writeGrid, cupyInverse, hdz]
  · rw [NumbaUpdate.sB3]
    norm_num [writeGrid, numbaInverse, invSign, hdz, hB2_0, hB2_1, hB2_2]
  · norm_num [cupyInverse]

/-! ## C7: shared-memory staging precision -/

/-- The two floating-point storage types of the library. -/
inductive FloatDtype
  | float32
  | float64
deriving DecidableEq

/-- Numeric precisions accepted by `_SUPPORTED_TYPES` (cp.float32 and
cp.float64). -/
def supportedDtypes : List FloatDtype := [FloatDtype.float32, FloatDtype.float64]

/-- Element type of the dynamic shared-memory buffer of `_numba_predict`:
the source declares `cuda.shared.array(shape=0, dtype=float32)` regardless
of the type the kernel is compiled for. -/
def numbaPredictSharedDtype : FloatDtype := FloatDtype.float32

/-- Element type of the dynamic shared-memory buffer of `_numba_update`:
likewise declared with `dtype=float32`. -/
def numbaUpdateSharedDtype : FloatDtype := FloatDtype.float32

/-- Element type of the shared tiles of the CuPy raw kernels: the template
parameter `T`, the kernel's own compiled type. -/
def cupySharedDtype (t : FloatDtype) : FloatDtype := t

/-- C7 (code bug).  float64 is a supported kernel precision, yet the Numba
kernels stage every tile through a shared buffer declared with
`dtype=float32`: for double-precision Numba kernels the staged values pass
through single precision, contradicting the claim that staging is exact with
no narrowing (the CuPy kernels do stage in the compiled type `T`). -/
theorem c7_shared_dtype_divergence :
    FloatDtype.float64 ∈ supportedDtypes
    ∧ numbaPredictSharedDtype = FloatDtype.float32
    ∧ numbaUpdateSharedDtype = FloatDtype.float32
    ∧ numbaPredictSharedDtype ≠ FloatDtype.float64
    ∧ numbaUpdateSharedDtype ≠ FloatDtype.float64
    ∧ cupySharedDtype FloatDtype.float64 = FloatDtype.float64 := by decide

/-! ## Kernel selection and cache (`_populate_kernel_cache`,
`_get_backend_kernel`) -/

/-- The `GPUKernel` enum of the source. -/
inductive GPUKernel
  | PREDICT
  | UPDATE
deriving DecidableEq

/-- Numeric types a caller may request; `_SUPPORTED_TYPES` maps exactly
`cp.float32` and `cp.float64`. -/
inductive NpType
  | float32
  | float64
  | float16
  | int8
  | int32
deriving DecidableEq

/-- Printable name of a requested type (`"{}".format(np_type)` role). -/
def NpType.name : NpType → String
  | .float32 => "float32"
  | .float64 => "float64"
  | .float16 => "float16"
  | .int8 => "int8"
  | .int32 => "int32"

/-- The `_SUPPORTED_TYPES` dict: maps a numeric type to
`[numba_type, c_type]`, here `(str(numba_type), c_type)`. -/
def SUPPORTED_TYPES : NpType → Option (String × String)
  | .float32 => some ("float32", "float")
  | .float64 => some ("float64", "double")
  | _ => none

/-- Python error values relevant to the cache layer. -/
inductive PyError
  | keyError (key : String)
  | valueError (msg : String)
  | exceptionMsg (msg : String)
  | notImplementedMsg (msg : String)
deriving DecidableEq

/-- A compiled CuPy kernel object, identified by the template specialization
it was built from (`module.get_function` of
`_cupy_predict<c_type, dim_x, max_tpb, min_bpsm>` or
`_cupy_update<c_type, dim_x, dim_z, max_tpb, min_bpsm>`). -/
inductive CupyKernel
  | predictKer (c_type : String) (dim_x max_tpb min_bpsm : ℕ)
  | updateKer (c_type : String) (dim_x dim_z max_tpb min_bpsm : ℕ)
deriving DecidableEq

/-- A jitted Numba kernel object: `cuda.jit(sig, fastmath=True)` applied to
`_numba_predict` or `_numba_update`; the dimensions are runtime shape
arguments, not part of the compiled object. -/
inductive NumbaKernel
  | predictKer (numba_type : String)
  | updateKer (numba_type : String)
deriving DecidableEq

/-- A Python dict with keys `(str(numba_type), GPUKernel)`, as an
association list; assignment replaces the binding of an existing key and
appends otherwise. -/
abbrev CupyCache := List ((String × GPUKernel) × CupyKernel)

abbrev NumbaCache := List ((String × GPUKernel) × NumbaKernel)

/-- Python dict assignment `d[k] = v`. -/
def dictSet {V : Type} (d : List ((String × GPUKernel) × V))
    (k : String × GPUKernel) (v : V) : List ((String × GPUKernel) × V) :=
  if d.any (fun e => e.1 = k) then
    d.map (fun e => if e.1 = k then (k, v) else e)
  else d ++ [(k, v)]

/-- Python dict subscript `d[k]`: `some` of the bound value, `none` when the
key is absent (where the interpreter raises `KeyError`). -/
def dictGet {V : Type} (d : List ((String × GPUKernel) × V))
    (k : String × GPUKernel) : Option V :=
  (d.find? (fun e => e.1 = k)).map (fun e => e.2)

/-- Both process-wide caches. -/
structure Caches where
  cupy : CupyCache
  numba : NumbaCache
deriving DecidableEq

/-- The subscript `_SUPPORTED_TYPES[np_type]` inside the `try`: raises
`KeyError(np_type)` for an unsupported type. -/
def lookupSupported (np_type : NpType) : Except PyError (String × String) :=
  match SUPPORTED_TYPES np_type with
  | some v => Except.ok v
  | none => Except.error (PyError.keyError np_type.name)

/-- The function `_populate_kernel_cache(np_type, use_numba, dim_x, dim_z, max_tpb,
min_bpsm)` as a transformation of the two caches.  The source wraps the
`_SUPPORTED_TYPES` lookup in `try ... except ValueError: raise Exception
("No kernel found for datatype ...")`, so only a `ValueError` would be
converted to that exception; the `KeyError` actually raised by a failed dict
lookup propagates unchanged.  On success the function builds both kernels
for the requested backend and assigns them under keys
`(str(numba_type), PREDICT)` and `(str(numba_type), UPDATE)`. -/
def populate_kernel_cache (np_type : NpType) (use_numba : Bool)
    (dim_x dim_z max_tpb min_bpsm : ℕ) (c : Caches) : Except PyError Caches :=
  match lookupSupported np_type with
  | Except.error e =>
    match e with
    | PyError.valueError _ =>
      Except.error (PyError.exceptionMsg
        ("No kernel found for datatype " ++ np_type.name))
    | _ => Except.error e
  | Except.ok (numba_type, c_type) =>
    if use_numba = false then
      let c1 := dictSet c.cupy (numba_type, GPUKernel.PREDICT)
        (CupyKernel.predictKer c_type dim_x max_tpb min_bpsm)
      let c2 := dictSet c1 (numba_type, GPUKernel.UPDATE)
        (CupyKernel.updateKer c_type dim_x dim_z max_tpb min_bpsm)
      Except.ok { c with cupy := c2 }
    else
      let n1 := dictSet c.numba (numba_type, GPUKernel.PREDICT)
        (NumbaKernel.predictKer numba_type)
      let n2 := dictSet n1 (numba_type, GPUKernel.UPDATE)
        (NumbaKernel.updateKer numba_type)
      Except.ok { c with numba := n2 }

/-- The cache lookup step of `_get_backend_kernel(dtype, ...)`: the CuPy
branch subscripts `_cupy_kernel_cache[(dtype.name, k_type)]` (raising
`KeyError` on a miss), and a bound-but-falsy value would raise the
`ValueError("Kernel ... not found in _cupy_kernel_cache")`; similarly for
the Numba branch.  Launch geometry and stream plumbing are irrelevant to the
cache claims and omitted. -/
def get_backend_kernel_cupy (dtypeName : String) (k_type : GPUKernel)
    (c : Caches) : Except PyError CupyKernel :=
  match dictGet c.cupy (dtypeName, k_type) with
  | some k => Except.ok k
  | none => Except.error (PyError.keyError dtypeName)

theorem find_in_set {V : Type} (d : List ((String × GPUKernel) × V))
    (k : String × GPUKernel) (v : V)
    (h : d.any (fun e => e.1 = k) = true) :
    dictGet (d.map (fun e => if e.1 = k then (k, v) else e)) k = some v := by
  induction d with
  | nil => simp at h
  | cons e t ih =>
    by_cases he : e.1 = k
    · simp [dictGet, List.find?, he]
    · simp only [List.any_cons, Bool.or_eq_true, decide_eq_true_eq] at h
      rcases h with h | h
      · exact absurd h he
      · have := ih h
        simp only [dictGet, List.map_cons, if_neg he, List.find?] at this ⊢
        rw [decide_eq_false he]
        exact this

theorem dictGet_dictSet_same {V : Type} (d : List ((String × GPUKernel) × V))
    (k : String × GPUKernel) (v : V) :
    dictGet (dictSet d k v) k = some v := by
  unfold dictSet
  by_cases h : d.any (fun e => e.1 = k) = true
  · rw [if_pos h]
    exact find_in_set d k v h
  · rw [if_neg h]
    induction d with
    | nil => simp [dictGet, List.find?]
    | cons e t ih =>
      simp only [List.any_cons, Bool.or_eq_true, decide_eq_true_eq, not_or] at h
      have ht : ¬ t.any (fun e => e.1 = k) = true := by
        simpa using h.2
      simp only [dictGet, List.cons_append, List.find?]
      rw [decide_eq_false h.1]
      exact ih ht

theorem find_in_set_other {V : Type} (d : List ((String × GPUKernel) × V))
    (k q : String × GPUKernel) (v : V) (h : q ≠ k) :
    dictGet (d.map (fun e => if e.1 = k then (k, v) else e)) q = dictGet d q := by
  induction d with
  | nil => rfl
  | cons e t ih =>
    by_cases he : e.1 = k
    · have h1 : ¬ ((k, v) : (String × GPUKernel) × V).1 = q := fun hh => h (Eq.symm hh)
      have h2 : ¬ e.1 = q := fun hh => h (by rw [← hh, he])
      simp only [dictGet, List.map_cons, if_pos he, List.find?]
      rw [decide_eq_false h1, decide_eq_false h2]
      exact ih
    · simp only [dictGet, List.map_cons, if_neg he, List.find?]
      by_cases hq : e.1 = q
      · rw [decide_eq_true hq]
      · rw [decide_eq_false hq]
        exact ih

theorem dictGet_dictSet_other {V : Type} (d : List ((String × GPUKernel) × V))
    (k q : String × GPUKernel) (v : V) (h : q ≠ k) :
    dictGet (dictSet d k v) q = dictGet d q := by
  unfold dictSet
  by_cases hAny : d.any (fun e => e.1 = k) = true
  · rw [if_pos hAny]
    exact find_in_set_other d k q v h
  · rw [if_neg hAny]
    induction d with
    | nil =>
      have h1 : ¬ ((k, v) : (String × GPUKernel) × V).1 = q := fun hh => h (Eq.symm hh)
      simp only [dictGet, List.nil_append, List.find?]
      rw [decide_eq_false h1]
    | cons e t ih =>
      simp only [List.any_cons, Bool.or_eq_true, decide_eq_true_eq, not_or] at hAny
      have ht : ¬ t.any (fun e => e.1 = k) = true := by
        simpa using hAny.2
      simp only [dictGet, List.cons_append, List.find?] at ih ⊢
      by_cases hq : e.1 = q
      · rw [decide_eq_true hq]
      · rw [decide_eq_false hq]
        exact ih ht

/-! ## C8: kernels are cached per `(precision, kernel kind)` only, so a
second build with different dimensions overwrites the first -/

/-- Cache contents after building CuPy kernels for `(float32, dim_x=2,
dim_z=1)` and then `(float32, dim_x=4, dim_z=3)` starting from empty caches:
one predict and one update entry, both holding the second specialization. -/
def c8final : Caches :=
  { cupy := [(("float32", GPUKernel.PREDICT), CupyKernel.predictKer "float" 4 32 2),
             (("float32", GPUKernel.UPDATE), CupyKernel.updateKer "float" 4 3 32 2)],
    numba := [] }

/-- C8 (counterexample).  Building for `(float32, 2, 1)` and then
`(float32, 4, 3)` on the CuPy strategy leaves a cache whose only predict and
update entries are the `(4, 3)` specializations: no entry of the final cache
holds a kernel specialized for `(2, 1)`, so the first dimension combination
is not retrievable and the cache key does not include `(dim_x, dim_z)`. -/
theorem c8_cache_overwrite_counterexample :
    (populate_kernel_cache NpType.float32 false 2 1 32 2
        { cupy := [], numba := [] }).bind
      (populate_kernel_cache NpType.float32 false 4 3 32 2)
      = Except.ok c8final
    ∧ dictGet c8final.cupy ("float32", GPUKernel.PREDICT)
        = some (CupyKernel.predictKer "float" 4 32 2)
    ∧ dictGet c8final.cupy ("float32", GPUKernel.UPDATE)
        = some (CupyKernel.updateKer "float" 4 3 32 2)
    ∧ (∀ e ∈ c8final.cupy, e.2 ≠ CupyKernel.predictKer "float" 2 32 2)
    ∧ (∀ e ∈ c8final.cupy, e.2 ≠ CupyKernel.updateKer "float" 2 1 32 2) := by
  refine ⟨rfl, ?_⟩
  decide

/-- C8 (amended).  The caches are keyed by `(str(numba_type), kernel_kind)`
within one strategy's dict: after two CuPy builds at the same precision the
retrievable predict and update kernels are those of the second build,
whatever dimensions the first build used, and the Numba cache is untouched. -/
theorem c8_cache_key_amended (dx1 dz1 dx2 dz2 tpb bpsm : ℕ) (c : Caches) :
    ∃ c2 : Caches,
      (populate_kernel_cache NpType.float32 false dx1 dz1 tpb bpsm c).bind
          (populate_kernel_cache NpType.float32 false dx2 dz2 tpb bpsm)
        = Except.ok c2
      ∧ dictGet c2.cupy ("float32", GPUKernel.PREDICT)
          = some (CupyKernel.predictKer "float" dx2 tpb bpsm)
      ∧ dictGet c2.cupy ("float32", GPUKernel.UPDATE)
          = some (CupyKernel.updateKer "float" dx2 dz2 tpb bpsm)
      ∧ c2.numba = c.numba := by
  refine ⟨{ c with cupy :=
      (dictSet
        (dictSet
          (dictSet
            (dictSet c.cupy ("float32", GPUKernel.PREDICT)
              (CupyKernel.predictKer "float" dx1 tpb bpsm))
            ("float32", GPUKernel.UPDATE)
            (CupyKernel.updateKer "float" dx1 dz1 tpb bpsm))
          ("float32", GPUKernel.PREDICT)
          (CupyKernel.predictKer "float" dx2 tpb bpsm))
        ("float32", GPUKernel.UPDATE)
        (CupyKernel.updateKer "float" dx2 dz2 tpb bpsm)) }, rfl, ?_, ?_, rfl⟩
  · rw [dictGet_dictSet_other _ _ _ _ (by decide), dictGet_dictSet_same]
  · rw [dictGet_dictSet_same]

/-! ## C9: unsupported numeric types -/

/-- C9 (code bug).  For every numeric type outside `{float32, float64}`,
`_populate_kernel_cache` fails synchronously before building anything and
without touching either cache (the model returns an error, producing no new
cache state) — but the failure is the `KeyError` of the dict lookup
`_SUPPORTED_TYPES[np_type]`, not the claimed
`Exception("No kernel found for datatype ...")`: the `except ValueError`
clause cannot catch a `KeyError`, so the intended message is dead code.  The
last conjunct shows the two failures are distinct error values. -/
theorem c9_unsupported_type_keyerror (use_numba : Bool)
    (dx dz tpb bpsm : ℕ) (c : Caches) :
    populate_kernel_cache NpType.int8 use_numba dx dz tpb bpsm c
      = Except.error (PyError.keyError "int8")
    ∧ populate_kernel_cache NpType.int32 use_numba dx dz tpb bpsm c
      = Except.error (PyError.keyError "int32")
    ∧ populate_kernel_cache NpType.float16 use_numba dx dz tpb bpsm c
      = Except.error (PyError.keyError "float16")
    ∧ (∀ msg : String, PyError.keyError "int8" ≠ PyError.exceptionMsg msg)
    ∧ (∀ c2 : Caches,
        populate_kernel_cache NpType.int8 use_numba dx dz tpb bpsm c
          ≠ Except.ok c2) :=
  ⟨rfl, rfl, rfl, fun _ h => PyError.noConfusion h,
    fun _ h => Except.noConfusion h⟩

/-! ## C4: the `col < 2` Kalman-gain gate -/

/-- The write events the specification's generalized gate `tx < dim_z`
would produce in the CuPy kernel. -/
def CupyUpdate.gainWriteEventsSpecGate (u : UpdIn) : List (ℕ × ℚ) :=
  (List.range u.dx).flatMap fun ty =>
    ((List.range u.dx).filter (fun tx => tx < u.dz)).map fun tx =>
      (ty * u.dz + tx,
        dot u.dz (fun j => CupyUpdate.sA1 u (ty * u.dz + j))
          (fun j => CupyUpdate.sB3 u (tx * u.dz + j)))

theorem gainSlots_nodup (dx : ℕ) (v : ℕ → ℕ → ℚ) :
    (((List.range dx).flatMap fun x =>
        ((List.range dx).filter (fun y => y < 2)).map fun y => (x * 2 + y, v x y)).map
      Prod.fst).Nodup := by
  rw [List.map_flatMap]
  simp only [List.map_map]
  rw [List.nodup_flatMap]
  constructor
  · intro x _
    refine List.Nodup.map ?_ (List.Nodup.filter _ (List.nodup_range dx))
    intro a b hab
    simp only [Function.comp_apply] at hab
    omega
  · rw [List.pairwise_iff_forall_sublist]
    intro a b hsub
    have hab : a ≠ b := by
      have := hsub.nodup (List.nodup_range dx)
      simp at this
      exact this
    simp only [Function.onFun, List.disjoint_left]
    intro t ht ht2
    simp only [List.mem_map, List.mem_filter, List.mem_range, Function.comp_apply,
      decide_eq_true_eq] at ht ht2
    obtain ⟨y1, ⟨-, hy1⟩, rfl⟩ := ht
    obtain ⟨y2, ⟨-, hy2⟩, he⟩ := ht2
    omega

/-- Concrete `dim_z = 1` input exhibiting the gain-phase write collision
(`dim_x = 2`; the buffer values are irrelevant to the slot computation). -/
def c4in : UpdIn :=
  { dx := 2, dz := 1, x := vOf [0, 0], z := vOf [1], H := mOf [[1, 0]],
    P := mOf [[1, 0], [0, 1]], R := mOf [[1]],
    sA0 := zB, sB0 := zB, sK0 := zB, sP0 := zB, sH0 := zB, sR0 := zB, sy0 := zB }

/-- C4 (counterexample).  For `dim_z = 1` the `col < 2` gate is not
equivalent to `col < dim_z`: the four gated threads of the `2 × 2` tile
write the slot sequence `[0, 1, 1, 2]` (in both kernels), so slot `1` — the
stored gain entry `K[1,0]` — receives two racing writes (one of them the
spurious thread `(0, 1)`), slot `2` lies beyond this instance's
`dim_x·dim_z` gain tile, and the event list differs from the one the
`col < dim_z` gate would produce. -/
theorem c4_gain_gate_dimz1_counterexample :
    (NumbaUpdate.gainWriteEvents c4in).map Prod.fst = [0, 1, 1, 2]
    ∧ (CupyUpdate.gainWriteEvents c4in).map Prod.fst = [0, 1, 1, 2]
    ∧ ¬ ((NumbaUpdate.gainWriteEvents c4in).map Prod.fst).Nodup
    ∧ (NumbaUpdate.gainWriteEvents c4in).length
        ≠ (NumbaUpdate.gainWriteEventsSpecGate c4in).length
    ∧ c4in.dx * c4in.dz ≤ 2 := by
  refine ⟨?_, ?_, by decide, by decide, by decide⟩ <;> rfl

/-- C4 (amended).  For `dim_z = 2` the `col < 2` gate is observably
equivalent to the specification's `col < dim_z` gate: the event lists
coincide, in both kernels; the written slots are pairwise distinct (no gain
entry receives a second, spurious write); every gain-tile entry
`(row, col)` with `row < dim_x`, `col < dim_z` is written with the kernel's
gain expression `Σ_j PHT[row,j]·SI[col,j]`; and nothing else is written. -/
theorem c4_gain_gate_amended (u : UpdIn) (h2 : u.dz = 2) (hzx : u.dz ≤ u.dx) :
    NumbaUpdate.gainWriteEvents u = NumbaUpdate.gainWriteEventsSpecGate u
    ∧ CupyUpdate.gainWriteEvents u = CupyUpdate.gainWriteEventsSpecGate u
    ∧ ((NumbaUpdate.gainWriteEvents u).map Prod.fst).Nodup
    ∧ ((CupyUpdate.gainWriteEvents u).map Prod.fst).Nodup
    ∧ (∀ r cc : ℕ, r < u.dx → cc < u.dz →
        (r * u.dz + cc,
          dot u.dz (fun j => NumbaUpdate.sA1 u (r * u.dz + j))
            (fun j => NumbaUpdate.sB3 u (cc * u.dz + j)))
          ∈ NumbaUpdate.gainWriteEvents u)
    ∧ (∀ e ∈ NumbaUpdate.gainWriteEvents u, ∃ r : ℕ, r < u.dx ∧ ∃ cc : ℕ, cc < u.dz ∧
        e = (r * u.dz + cc,
          dot u.dz (fun j => NumbaUpdate.sA1 u (r * u.dz + j))
            (fun j => NumbaUpdate.sB3 u (cc * u.dz + j)))) := by
  refine ⟨?_, ?_, ?_, ?_, ?_, ?_⟩
  · simp only [NumbaUpdate.gainWriteEvents, NumbaUpdate.gainWriteEventsSpecGate, h2]
  · simp only [CupyUpdate.gainWriteEvents, CupyUpdate.gainWriteEventsSpecGate, h2]
  · simp only [NumbaUpdate.gainWriteEvents, h2]
    exact gainSlots_nodup u.dx _
  · simp only [CupyUpdate.gainWriteEvents, h2]
    exact gainSlots_nodup u.dx _
  · intro r cc hr hcc
    rw [NumbaUpdate.gainWriteEvents]
    refine List.mem_flatMap.mpr ⟨r, List.mem_range.mpr hr, ?_⟩
    refine List.mem_map.mpr ⟨cc, List.mem_filter.mpr ⟨?_, ?_⟩, rfl⟩
    · exact List.mem_range.mpr (lt_of_lt_of_le hcc hzx)
    · simp only [decide_eq_true_eq]
      omega
  · intro e he
    rw [NumbaUpdate.gainWriteEvents] at he
    obtain ⟨r, hr, he2⟩ := List.mem_flatMap.mp he
    obtain ⟨cc, hcc, rfl⟩ := List.mem_map.mp he2
    obtain ⟨-, hcc2⟩ := List.mem_filter.mp hcc
    refine ⟨r, List.mem_range.mp hr, cc, ?_, rfl⟩
    simp only [decide_eq_true_eq] at hcc2
    omega

/-- Concrete `dim_z = 2` instantiation witnessing the amended C4. -/
def c4in2 : UpdIn :=
  { dx := 2, dz := 2, x := vOf [0, 0], z := vOf [1, 0], H := mOf [[1, 0], [0, 1]],
    P := mOf [[1, 0], [0, 1]], R := mOf [[1, 0], [0, 1]],
    sA0 := zB, sB0 := zB, sK0 := zB, sP0 := zB, sH0 := zB, sR0 := zB, sy0 := zB }

theorem c4_gain_gate_amended_witness :
    c4in2.dz = 2 ∧ c4in2.dz ≤ c4in2.dx
    ∧ NumbaUpdate.gainWriteEvents c4in2 = NumbaUpdate.gainWriteEventsSpecGate c4in2 :=
  ⟨by decide, by decide,
    (c4_gain_gate_amended c4in2 (by decide) (by decide)).1⟩

/-! ## C5: Joseph-form covariance symmetry -/

theorem quadFormSym (n : ℕ) (f M : ℕ → ℕ → ℚ)
    (hM : ∀ i j : ℕ, i < n → j < n → M i j = M j i) (r c : ℕ) :
    ∑ j ∈ Finset.range n, (∑ i ∈ Finset.range n, f r i * M i j) * f c j
      = ∑ j ∈ Finset.range n, (∑ i ∈ Finset.range n, f c i * M i j) * f r j := by
  calc ∑ j ∈ Finset.range n, (∑ i ∈ Finset.range n, f r i * M i j) * f c j
      = ∑ j ∈ Finset.range n, ∑ i ∈ Finset.range n, f r i * M i j * f c j := by
        refine Finset.sum_congr rfl (fun j _ => ?_)
        rw [Finset.sum_mul]
    _ = ∑ i ∈ Finset.range n, ∑ j ∈ Finset.range n, f r i * M i j * f c j :=
        Finset.sum_comm
    _ = ∑ i ∈ Finset.range n, ∑ j ∈ Finset.range n, f c j * M j i * f r i := by
        refine Finset.sum_congr rfl (fun i hi => Finset.sum_congr rfl (fun j hj => ?_))
        rw [hM i j (Finset.mem_range.mp hi) (Finset.mem_range.mp hj)]
        ring
    _ = ∑ i ∈ Finset.range n, (∑ j ∈ Finset.range n, f c j * M j i) * f r i := by
        refine Finset.sum_congr rfl (fun i _ => ?_)
        rw [Finset.sum_mul]

/-- C5.  If the pre-call covariance `P` and measurement noise `R` are
symmetric (on their staged regions) and the staged innovation covariance `S`
is invertible, the covariance written back by one update call is symmetric
on the `dim_x × dim_x` region, for both backends and all dimensions: the
Joseph-form phases compute `A·P·Aᵗ + K·R·Kᵗ` for the staged `A = I-KH` and
gain tile `K` (whatever values the gain and inverse phases produced), and
such a sum of congruences of symmetric matrices is symmetric. -/
theorem c5_joseph_symmetry (u : UpdIn)
    (hP : ∀ i j : ℕ, i < u.dx → j < u.dx → u.P i j = u.P j i)
    (hR : ∀ i j : ℕ, i < u.dz → j < u.dz → u.R i j = u.R j i)
    (hS : ∃ T : Mat, ∀ a b : ℕ, a < u.dz → b < u.dz →
      (∑ j ∈ Finset.range u.dz, NumbaUpdate.sB2 u (a * u.dz + j) * T j b)
        = if a = b then 1 else 0)
    (r c : ℕ) (hr : r < u.dx) (hc : c < u.dx) :
    NumbaUpdate.newP u r c = NumbaUpdate.newP u c r
    ∧ CupyUpdate.newP u r c = CupyUpdate.newP u c r := by
  clear hS  -- the symmetry holds whether or not the inverse phase succeeded
  constructor
  · have hJ : ∀ a b : ℕ, a < u.dx → b < u.dx →
        NumbaUpdate.josephTemp u a b
          = ∑ j ∈ Finset.range u.dx,
              (∑ i ∈ Finset.range u.dx,
                NumbaUpdate.sA5 u (a * u.dx + i) * u.P i j)
                * NumbaUpdate.sA5 u (b * u.dx + j) := by
      intro a b ha hb
      rw [NumbaUpdate.josephTemp]
      unfold dot
      refine Finset.sum_congr rfl (fun j hj => ?_)
      have hjx := Finset.mem_range.mp hj
      dsimp only
      rw [NumbaUpdate.sB6, writeGrid_read _ _ ha hjx]
      unfold dot
      congr 1
      refine Finset.sum_congr rfl (fun i hi => ?_)
      have hix := Finset.mem_range.mp hi
      dsimp only
      rw [NumbaUpdate.sPs, writeGrid_read _ _ hix hjx]
    have hK : ∀ a b : ℕ, a < u.dx → b < u.dx →
        dot u.dz (fun j => NumbaUpdate.sA7 u (a * u.dz + j))
            (fun j => NumbaUpdate.sK4 u (b * u.dz + j))
          = ∑ j ∈ Finset.range u.dz,
              (∑ i ∈ Finset.range u.dz,
                NumbaUpdate.sK4 u (a * u.dz + i) * u.R i j)
                * NumbaUpdate.sK4 u (b * u.dz + j) := by
      intro a b ha hb
      unfold dot
      refine Finset.sum_congr rfl (fun j hj => ?_)
      have hjz := Finset.mem_range.mp hj
      dsimp only
      rw [NumbaUpdate.sA7, writeGrid_read _ _ ha hjz]
      unfold dot
      congr 1
      refine Finset.sum_congr rfl (fun i hi => ?_)
      have hiz := Finset.mem_range.mp hi
      dsimp only
      rw [NumbaUpdate.sRs, writeGrid_read _ _ hiz hjz]
    rw [NumbaUpdate.newP]
    rw [NumbaUpdate.newP]
    rw [if_pos ⟨hr, hc⟩, if_pos ⟨hc, hr⟩]
    rw [hJ r c hr hc, hJ c r hc hr, hK r c hr hc, hK c r hc hr]
    rw [quadFormSym u.dx (fun a b => NumbaUpdate.sA5 u (a * u.dx + b)) u.P hP r c]
    rw [quadFormSym u.dz (fun a b => NumbaUpdate.sK4 u (a * u.dz + b)) u.R hR r c]
  · have hJ : ∀ a b : ℕ, a < u.dx → b < u.dx →
        CupyUpdate.sP7 u (a * u.dx + b)
          = ∑ j ∈ Finset.range u.dx,
              (∑ i ∈ Finset.range u.dx,
                CupyUpdate.sA5 u (a * u.dx + i) * u.P i j)
                * CupyUpdate.sA5 u (b * u.dx + j) := by
      intro a b ha hb
      rw [CupyUpdate.sP7, writeGrid_read _ _ ha hb]
      unfold dot
      refine Finset.sum_congr rfl (fun j hj => ?_)
      have hjx := Finset.mem_range.mp hj
      dsimp only
      rw [CupyUpdate.sB6, writeGrid_read _ _ ha hjx]
      unfold dot
      congr 1
      refine Finset.sum_congr rfl (fun i hi => ?_)
      have hix := Finset.mem_range.mp hi
      dsimp only
      rw [CupyUpdate.sPs, writeGrid_read _ _ hix hjx]
    have hK : ∀ a b : ℕ, a < u.dx → b < u.dx →
        dot u.dz (fun j => CupyUpdate.sA7 u (a * u.dz + j))
            (fun j => CupyUpdate.sK4 u (b * u.dz + j))
          = ∑ j ∈ Finset.range u.dz,
              (∑ i ∈ Finset.range u.dz,
                CupyUpdate.sK4 u (a * u.dz + i) * u.R i j)
                * CupyUpdate.sK4 u (b * u.dz + j) := by
      intro a b ha hb
      unfold dot
      refine Finset.sum_congr rfl (fun j hj => ?_)
      have hjz := Finset.mem_range.mp hj
      dsimp only
      rw [CupyUpdate.sA7, writeGrid_read _ _ ha hjz]
      unfold dot
      congr 1
      refine Finset.sum_congr rfl (fun i hi => ?_)
      have hiz := Finset.mem_range.mp hi
      dsimp only
      rw [CupyUpdate.sRs, writeGrid_read _ _ hiz hjz]
    rw [CupyUpdate.newP]
    rw [CupyUpdate.newP]
    rw [if_pos ⟨hr, hc⟩, if_pos ⟨hc, hr⟩]
    rw [hJ r c hr hc, hJ c r hc hr, hK r c hr hc, hK c r hc hr]
    rw [quadFormSym u.dx (fun a b => CupyUpdate.sA5 u (a * u.dx + b)) u.P hP r c]
    rw [quadFormSym u.dz (fun a b => CupyUpdate.sK4 u (a * u.dz + b)) u.R hR r c]

/-- Concrete symmetric input (`dim_x = dim_z = 2`, `P = H = R = I`, so
`S = 2·I`) witnessing C5. -/
def c5in : UpdIn :=
  { dx := 2, dz := 2, x := vOf [3, 4], z := vOf [1, 0], H := mOf [[1, 0], [0, 1]],
    P := mOf [[1, 0], [0, 1]], R := mOf [[1, 0], [0, 1]],
    sA0 := zB, sB0 := zB, sK0 := zB, sP0 := zB, sH0 := zB, sR0 := zB, sy0 := zB }

theorem c5_joseph_symmetry_witness :
    (∀ i j : ℕ, i < c5in.dx → j < c5in.dx → c5in.P i j = c5in.P j i)
    ∧ (∀ i j : ℕ, i < c5in.dz → j < c5in.dz → c5in.R i j = c5in.R j i)
    ∧ (∃ T : Mat, ∀ a b : ℕ, a < c5in.dz → b < c5in.dz →
        (∑ j ∈ Finset.range c5in.dz, NumbaUpdate.sB2 c5in (a * c5in.dz + j) * T j b)
          = if a = b then 1 else 0)
    ∧ NumbaUpdate.newP c5in 0 1 = NumbaUpdate.newP c5in 1 0
    ∧ CupyUpdate.newP c5in 0 1 = CupyUpdate.newP c5in 1 0 := by
  have hdx : c5in.dx = 2 := rfl
  have hdz : c5in.dz = 2 := rfl
  have hP0 : NumbaUpdate.sPs c5in 0 = 1 := by
    rw [NumbaUpdate.sPs]; norm_num [writeGrid, hdx, c5in, mOf]
  have hP1 : NumbaUpdate.sPs c5in 1 = 0 := by
    rw [NumbaUpdate.sPs]; norm_num [writeGrid, hdx, c5in, mOf]
  have hP2 : NumbaUpdate.sPs c5in 2 = 0 := by
    rw [NumbaUpdate.sPs]; norm_num [writeGrid, hdx, c5in, mOf]
  have hP3 : NumbaUpdate.sPs c5in 3 = 1 := by
    rw [NumbaUpdate.sPs]; norm_num [writeGrid, hdx, c5in, mOf]
  have hH0 : NumbaUpdate.sHs c5in 0 = 1 := by
    rw [NumbaUpdate.sHs]; norm_num [writeGrid, hdx, hdz, c5in, mOf]
  have hH1 : NumbaUpdate.sHs c5in 1 = 0 := by
    rw [NumbaUpdate.sHs]; norm_num [writeGrid, hdx, hdz, c5in, mOf]
  have hH2 : NumbaUpdate.sHs c5in 2 = 0 := by
    rw [NumbaUpdate.sHs]; norm_num [writeGrid, hdx, hdz, c5in, mOf]
  have hH3 : NumbaUpdate.sHs c5in 3 = 1 := by
    rw [NumbaUpdate.sHs]; norm_num [writeGrid, hdx, hdz, c5in, mOf]
  have hR0 : NumbaUpdate.sRs c5in 0 = 1 := by
    rw [NumbaUpdate.sRs]; norm_num [writeGrid, hdz, c5in, mOf]
  have hR3 : NumbaUpdate.sRs c5in 3 = 1 := by
    rw [NumbaUpdate.sRs]; norm_num [writeGrid, hdz, c5in, mOf]
  have hR1 : NumbaUpdate.sRs c5in 1 = 0 := by
    rw [NumbaUpdate.sRs]; norm_num [writeGrid, hdz, c5in, mOf]
  have hR2 : NumbaUpdate.sRs c5in 2 = 0 := by
    rw [NumbaUpdate.sRs]; norm_num [writeGrid, hdz, c5in, mOf]
  have hA0 : NumbaUpdate.sA1 c5in 0 = 1 := by
    rw [NumbaUpdate.sA1]
    norm_num [writeGrid, dot, Finset.sum_range_succ, hdx, hdz, hP0, hP1, hH0, hH1]
  have hA1 : NumbaUpdate.sA1 c5in 1 = 0 := by
    rw [NumbaUpdate.sA1]
    norm_num [writeGrid, dot, Finset.sum_range_succ, hdx, hdz, hP0, hP1, hH2, hH3]
  have hA2 : NumbaUpdate.sA1 c5in 2 = 0 := by
    rw [NumbaUpdate.sA1]
    norm_num [writeGrid, dot, Finset.sum_range_succ, hdx, hdz, hP2, hP3, hH0, hH1]
  have hA3 : NumbaUpdate.sA1 c5in 3 = 1 := by
    rw [NumbaUpdate.sA1]
    norm_num [writeGrid, dot, Finset.sum_range_succ, hdx, hdz, hP2, hP3, hH2, hH3]
  have hB0 : NumbaUpdate.sB2 c5in 0 = 2 := by
    rw [NumbaUpdate.sB2]
    norm_num [writeGrid, dot, Finset.sum_range_succ, hdx, hdz, hA0, hA2, hH0, hH1, hR0]
  have hB1 : NumbaUpdate.sB2 c5in 1 = 0 := by
    rw [NumbaUpdate.sB2]
    norm_num [writeGrid, dot, Finset.sum_range_succ, hdx, hdz, hA1, hA3, hH0, hH1, hR1]
  have hB2 : NumbaUpdate.sB2 c5in 2 = 0 := by
    rw [NumbaUpdate.sB2]
    norm_num [writeGrid, dot, Finset.sum_range_succ, hdx, hdz, hA0, hA2, hH2, hH3, hR2]
  have hB3 : NumbaUpdate.sB2 c5in 3 = 2 := by
    rw [NumbaUpdate.sB2]
    norm_num [writeGrid, dot, Finset.sum_range_succ, hdx, hdz, hA1, hA3, hH2, hH3, hR3]
  have hhP : ∀ i j : ℕ, i < c5in.dx → j < c5in.dx → c5in.P i j = c5in.P j i := by
    intro i j hi hj
    rw [hdx] at hi hj
    interval_cases i <;> interval_cases j <;> rfl
  have hhR : ∀ i j : ℕ, i < c5in.dz → j < c5in.dz → c5in.R i j = c5in.R j i := by
    intro i j hi hj
    rw [hdz] at hi hj
    interval_cases i <;> interval_cases j <;> rfl
  have hhS : ∃ T : Mat, ∀ a b : ℕ, a < c5in.dz → b < c5in.dz →
      (∑ j ∈ Finset.range c5in.dz, NumbaUpdate.sB2 c5in (a * c5in.dz + j) * T j b)
        = if a = b then 1 else 0 := by
    refine ⟨mOf [[1/2, 0], [0, 1/2]], ?_⟩
    intro a b ha hb
    rw [hdz] at ha hb
    interval_cases a <;> interval_cases b <;>
      norm_num [hdz, Finset.sum_range_succ, hB0, hB1, hB2, hB3, mOf]
  have h := c5_joseph_symmetry c5in hhP hhR hhS 0 1 (by decide) (by decide)
  exact ⟨hhP, hhR, hhS, h.1, h.2⟩

/-! ## C3: the two backends are not observably equivalent -/

/-- Concrete `dim_x = dim_z = 2` input with asymmetric `R` (so `S = I + R =
[[1,1],[0,1]]` is asymmetric but invertible) on which the two backends
disagree. -/
def c3in : UpdIn :=
  { dx := 2, dz := 2, x := vOf [0, 0], z := vOf [1, 0], H := mOf [[1, 0], [0, 1]],
    P := mOf [[1, 0], [0, 1]], R := mOf [[0, 1], [0, 0]],
    sA0 := zB, sB0 := zB, sK0 := zB, sP0 := zB, sH0 := zB, sR0 := zB, sy0 := zB }

/-- C3 (counterexample).  On `c3in` the Numba update's inverse phase writes
the adjugate-transpose `(Sᵗ)⁻¹` while the CuPy `inverse` writes `S⁻¹`
(entry `(0,1)` is `0` versus `-1`), and the divergence is observable in the
post-call state: entry `1` of the corrected state is `0` under Numba and
`-1` under CuPy for identical inputs. -/
theorem c3_backend_divergence_counterexample :
    NumbaUpdate.sB3 c3in 1 = 0
    ∧ CupyUpdate.sB3 c3in 1 = -1
    ∧ NumbaUpdate.newX c3in 1 = 0
    ∧ CupyUpdate.newX c3in 1 = -1
    ∧ (NumbaUpdate.run c3in).x 1 ≠ (CupyUpdate.run c3in).x 1 := by
  have hdx : c3in.dx = 2 := rfl
  have hdz : c3in.dz = 2 := rfl
  have hP0 : NumbaUpdate.sPs c3in 0 = 1 := by
    rw [NumbaUpdate.sPs]; norm_num [writeGrid, hdx, c3in, mOf]
  have hP1 : NumbaUpdate.sPs c3in 1 = 0 := by
    rw [NumbaUpdate.sPs]; norm_num [writeGrid, hdx, c3in, mOf]
  have hP2 : NumbaUpdate.sPs c3in 2 = 0 := by
    rw [NumbaUpdate.sPs]; norm_num [writeGrid, hdx, c3in, mOf]
  have hP3 : NumbaUpdate.sPs c3in 3 = 1 := by
    rw [NumbaUpdate.sPs]; norm_num [writeGrid, hdx, c3in, mOf]
  have hH0 : NumbaUpdate.sHs c3in 0 = 1 := by
    rw [NumbaUpdate.sHs]; norm_num [writeGrid, hdx, hdz, c3in, mOf]
  have hH1 : NumbaUpdate.sHs c3in 1 = 0 := by
    rw [NumbaUpdate.sHs]; norm_num [writeGrid, hdx, hdz, c3in, mOf]
  have hH2 : NumbaUpdate.sHs c3in 2 = 0 := by
    rw [NumbaUpdate.sHs]; norm_num [writeGrid, hdx, hdz, c3in, mOf]
  have hH3 : NumbaUpdate.sHs c3in 3 = 1 := by
    rw [NumbaUpdate.sHs]; norm_num [writeGrid, hdx, hdz, c3in, mOf]
  have hR0 : NumbaUpdate.sRs c3in 0 = 0 := by
    rw [NumbaUpdate.sRs]; norm_num [writeGrid, hdz, c3in, mOf]
  have hR1 : NumbaUpdate.sRs c3in 1 = 1 := by
    rw [NumbaUpdate.sRs]; norm_num [writeGrid, hdz, c3in, mOf]
  have hR2 : NumbaUpdate.sRs c3in 2 = 0 := by
    rw [NumbaUpdate.sRs]; norm_num [writeGrid, hdz, c3in, mOf]
  have hR3 : NumbaUpdate.sRs c3in 3 = 0 := by
    rw [NumbaUpdate.sRs]; norm_num [writeGrid, hdz, c3in, mOf]
  have hy0 : NumbaUpdate.sy1 c3in 0 = 1 := by
    rw [NumbaUpdate.sy1]
    norm_num [writeGrid, dot, Finset.sum_range_succ, hdx, hdz, hH0, hH1]
    norm_num [c3in, mOf, vOf]
  have hy1 : NumbaUpdate.sy1 c3in 1 = 0 := by
    rw [NumbaUpdate.sy1]
    norm_num [writeGrid, dot, Finset.sum_range_succ, hdx, hdz, hH2, hH3]
    norm_num [c3in, mOf, vOf]
  have hA0 : NumbaUpdate.sA1 c3in 0 = 1 := by
    rw [NumbaUpdate.sA1]
    norm_num [writeGrid, dot, Finset.sum_range_succ, hdx, hdz, hP0, hP1, hH0, hH1]
  have hA1 : NumbaUpdate.sA1 c3in 1 = 0 := by
    rw [NumbaUpdate.sA1]
    norm_num [writeGrid, dot, Finset.sum_range_succ, hdx, hdz, hP0, hP1, hH2, hH3]
  have hA2 : NumbaUpdate.sA1 c3in 2 = 0 := by
    rw [NumbaUpdate.sA1]
    norm_num [writeGrid, dot, Finset.sum_range_succ, hdx, hdz, hP2, hP3, hH0, hH1]
  have hA3 : NumbaUpdate.sA1 c3in 3 = 1 := by
    rw [NumbaUpdate.sA1]
    norm_num [writeGrid, dot, Finset.sum_range_succ, hdx, hdz, hP2, hP3, hH2, hH3]
  have hB0 : NumbaUpdate.sB2 c3in 0 = 1 := by
    rw [NumbaUpdate.sB2]
    norm_num [writeGrid, dot, Finset.sum_range_succ, hdx, hdz, hA0, hA2, hH0, hH1, hR0]
  have hB1 : NumbaUpdate.sB2 c3in 1 = 1 := by
    rw [NumbaUpdate.sB2]
    norm_num [writeGrid, dot, Finset.sum_range_succ, hdx, hdz, hA1, hA3, hH0, hH1, hR1]
  have hB2 : NumbaUpdate.sB2 c3in 2 = 0 := by
    rw [NumbaUpdate.sB2]
    norm_num [writeGrid, dot, Finset.sum_range_succ, hdx, hdz, hA0, hA2, hH2, hH3, hR2]
  have hB3 : NumbaUpdate.sB2 c3in 3 = 1 := by
    rw [NumbaUpdate.sB2]
    norm_num [writeGrid, dot, Finset.sum_range_succ, hdx, hdz, hA1, hA3, hH2, hH3, hR3]
  have hSIn1 : NumbaUpdate.sB3 c3in 1 = 0 := by
    rw [NumbaUpdate.sB3]
    norm_num [writeGrid, numbaInverse, invSign, hdz, hB0, hB1, hB2, hB3]
  have hSIn3 : NumbaUpdate.sB3 c3in 3 = 1 := by
    rw [NumbaUpdate.sB3]
    norm_num [writeGrid, numbaInverse, invSign, hdz, hB0, hB1, hB2, hB3]
  have hCB : CupyUpdate.sB2 c3in = NumbaUpdate.sB2 c3in := rfl
  have hSIc1 : CupyUpdate.sB3 c3in 1 = -1 := by
    rw [CupyUpdate.sB3]
    norm_num [writeGrid, cupyInverse, invSign, hdz]
    norm_num [hCB, hB0, hB1, hB2, hB3]
  have hSIc3 : CupyUpdate.sB3 c3in 3 = 1 := by
    rw [CupyUpdate.sB3]
    norm_num [writeGrid, cupyInverse, invSign, hdz]
    norm_num [hCB, hB0, hB1, hB2, hB3]
  have hCA : CupyUpdate.sA1 c3in = NumbaUpdate.sA1 c3in := rfl
  have hCy : CupyUpdate.sy1 c3in = NumbaUpdate.sy1 c3in := rfl
  have hKn2 : NumbaUpdate.sK4 c3in 2 = 0 := by
    rw [NumbaUpdate.sK4]
    norm_num [dot, Finset.sum_range_succ, hdx, hdz, hA2, hA3, hSIn1]
  have hKn3 : NumbaUpdate.sK4 c3in 3 = 1 := by
    rw [NumbaUpdate.sK4]
    norm_num [dot, Finset.sum_range_succ, hdx, hdz, hA2, hA3, hSIn3]
  have hKc2 : CupyUpdate.sK4 c3in 2 = -1 := by
    rw [CupyUpdate.sK4]
    norm_num [dot, Finset.sum_range_succ, hdx, hdz, hCA, hA2, hA3, hSIc1]
  have hKc3 : CupyUpdate.sK4 c3in 3 = 1 := by
    rw [CupyUpdate.sK4]
    norm_num [dot, Finset.sum_range_succ, hdx, hdz, hCA, hA2, hA3, hSIc3]
  have hx1 : c3in.x 1 = 0 := by norm_num [c3in, vOf]
  have hXn : NumbaUpdate.newX c3in 1 = 0 := by
    rw [NumbaUpdate.newX]
    norm_num [dot, Finset.sum_range_succ, hdx, hdz, hKn2, hKn3, hy0, hy1, hx1]
  have hXc : CupyUpdate.newX c3in 1 = -1 := by
    rw [CupyUpdate.newX]
    norm_num [dot, Finset.sum_range_succ, hdx, hdz, hKc2, hKc3, hCy, hy0, hy1, hx1]
  refine ⟨hSIn1, hSIc1, hXn, hXc, ?_⟩
  show NumbaUpdate.newX c3in 1 ≠ CupyUpdate.newX c3in 1
  rw [hXn, hXc]
  norm_num

theorem hpSandwich (n : ℕ) (f M : ℕ → ℕ → ℚ)
    (hM : ∀ i j : ℕ, i < n → j < n → M i j = M j i) (a b : ℕ) :
    ∑ j ∈ Finset.range n, f a j * (∑ i ∈ Finset.range n, M j i * f b i)
      = ∑ j ∈ Finset.range n, f b j * (∑ i ∈ Finset.range n, M j i * f a i) := by
  have step : ∀ p q : ℕ,
      ∑ j ∈ Finset.range n, f p j * (∑ i ∈ Finset.range n, M j i * f q i)
        = ∑ j ∈ Finset.range n, (∑ i ∈ Finset.range n, f q i * M i j) * f p j := by
    intro p q
    refine Finset.sum_congr rfl (fun j hj => ?_)
    rw [mul_comm]
    congr 1
    refine Finset.sum_congr rfl (fun i hi => ?_)
    rw [mul_comm, hM j i (Finset.mem_range.mp hj) (Finset.mem_range.mp hi)]
  rw [step a b, step b a]
  exact quadFormSym n f M hM b a

/-- C3 (amended).  The two predict kernels are extensionally identical; the
two update kernels agree for the `dim_z = 2` specialization whenever the
staged innovation covariance is symmetric, which holds when `P` and `R` are
symmetric: then the Numba inverse (adjugate transpose) and the CuPy inverse
coincide, and every later phase is computed identically. -/
theorem c3_backend_agreement_amended (p : PredIn) (u : UpdIn) (h2 : u.dz = 2)
    (hP : ∀ i j : ℕ, i < u.dx → j < u.dx → u.P i j = u.P j i)
    (hR : ∀ i j : ℕ, i < u.dz → j < u.dz → u.R i j = u.R j i) :
    CupyPredict.run p = NumbaPredict.run p
    ∧ CupyUpdate.run u = NumbaUpdate.run u := by
  have hA1eq : CupyUpdate.sA1 u = NumbaUpdate.sA1 u := rfl
  have hB2eq : CupyUpdate.sB2 u = NumbaUpdate.sB2 u := rfl
  have hHs : CupyUpdate.sHs u = NumbaUpdate.sHs u := rfl
  have hPs : CupyUpdate.sPs u = NumbaUpdate.sPs u := rfl
  have hRs : CupyUpdate.sRs u = NumbaUpdate.sRs u := rfl
  have hsy : CupyUpdate.sy1 u = NumbaUpdate.sy1 u := rfl
  have hSsym : ∀ a b : ℕ, a < u.dz → b < u.dz →
      NumbaUpdate.sB2 u (a * u.dz + b) = NumbaUpdate.sB2 u (b * u.dz + a) := by
    intro a b ha hb
    have hdot : ∀ q w : ℕ, q < u.dz → w < u.dz →
        dot u.dx (fun j => NumbaUpdate.sHs u (q * u.dx + j))
            (fun j => NumbaUpdate.sA1 u (j * u.dz + w))
          = ∑ j ∈ Finset.range u.dx,
              NumbaUpdate.sHs u (q * u.dx + j)
                * (∑ i ∈ Finset.range u.dx,
                    u.P j i * NumbaUpdate.sHs u (w * u.dx + i)) := by
      intro q w hq hw
      unfold dot
      refine Finset.sum_congr rfl (fun j hj => ?_)
      have hjx := Finset.mem_range.mp hj
      dsimp only
      congr 1
      rw [NumbaUpdate.sA1, writeGrid_read _ _ hjx hw]
      unfold dot
      refine Finset.sum_congr rfl (fun i hi => ?_)
      have hix := Finset.mem_range.mp hi
      dsimp only
      rw [NumbaUpdate.sPs, writeGrid_read _ _ hjx hix]
    rw [NumbaUpdate.sB2, writeGrid_read _ _ ha hb, writeGrid_read _ _ hb ha]
    have hRside : NumbaUpdate.sRs u (a * u.dz + b) = NumbaUpdate.sRs u (b * u.dz + a) := by
      rw [NumbaUpdate.sRs, writeGrid_read _ _ ha hb, writeGrid_read _ _ hb ha]
      exact hR a b ha hb
    rw [hRside, hdot a b ha hb, hdot b a hb ha]
    congr 1
    exact hpSandwich u.dx (fun q i => NumbaUpdate.sHs u (q * u.dx + i)) u.P hP a b
  have hB3eq : CupyUpdate.sB3 u = NumbaUpdate.sB3 u := by
    funext k
    rw [CupyUpdate.sB3, NumbaUpdate.sB3, hB2eq]
    unfold writeGrid
    by_cases hk : k < u.dz * u.dz
    · rw [if_pos hk, if_pos hk]
      have hk4 : k < 4 := by rw [h2] at hk; omega
      have hs21 : NumbaUpdate.sB2 u 2 = NumbaUpdate.sB2 u 1 := by
        have := hSsym 1 0 (by omega) (by omega)
        rw [h2] at this
        norm_num at this
        exact this
      interval_cases k <;>
        simp only [h2, cupyInverse, numbaInverse, invSign] <;> norm_num <;>
          rw [hs21] <;> ring
    · rw [if_neg hk, if_neg hk]
  have hKeq : CupyUpdate.sK4 u = NumbaUpdate.sK4 u := by
    funext k
    simp only [CupyUpdate.sK4, NumbaUpdate.sK4, hB3eq, hA1eq]
  have hA5eq : CupyUpdate.sA5 u = NumbaUpdate.sA5 u := by
    funext k
    simp only [CupyUpdate.sA5, NumbaUpdate.sA5, hKeq, hHs, hA1eq]
  have hB6eq : CupyUpdate.sB6 u = NumbaUpdate.sB6 u := by
    funext k
    simp only [CupyUpdate.sB6, NumbaUpdate.sB6, hA5eq, hPs, hB3eq]
  have hA7eq : CupyUpdate.sA7 u = NumbaUpdate.sA7 u := by
    funext k
    simp only [CupyUpdate.sA7, NumbaUpdate.sA7, hKeq, hRs, hA5eq]
  have hXeq : CupyUpdate.newX u = NumbaUpdate.newX u := by
    funext i
    simp only [CupyUpdate.newX, NumbaUpdate.newX, hKeq, hsy]
  have hPeq : CupyUpdate.newP u = NumbaUpdate.newP u := by
    funext r c
    rw [CupyUpdate.newP, NumbaUpdate.newP]
    by_cases h : r < u.dx ∧ c < u.dx
    · rw [if_pos h, if_pos h]
      rw [CupyUpdate.sP7, writeGrid_read _ _ h.1 h.2, NumbaUpdate.josephTemp]
      simp only [hB6eq, hA5eq, hA7eq, hKeq]
    · rw [if_neg h, if_neg h]
  refine ⟨rfl, ?_⟩
  rw [CupyUpdate.run, NumbaUpdate.run, hXeq, hPeq]

/-- Concrete predict input for the C3 witness. -/
def c3pred : PredIn :=
  { dx := 2, alpha_sq := 1, x := vOf [5, 6], F := mOf [[1, 1], [0, 1]],
    P := mOf [[2, 0], [0, 2]], Q := mOf [[1, 0], [0, 1]], sA0 := zB, sF0 := zB }

/-- Concrete symmetric `dim_z = 2` update input for the C3 witness. -/
def c3in2 : UpdIn :=
  { dx := 2, dz := 2, x := vOf [1, 2], z := vOf [0, 1], H := mOf [[1, 0], [0, 1]],
    P := mOf [[1, 0], [0, 1]], R := mOf [[1, 0], [0, 1]],
    sA0 := zB, sB0 := zB, sK0 := zB, sP0 := zB, sH0 := zB, sR0 := zB, sy0 := zB }

theorem c3_backend_agreement_witness :
    c3in2.dz = 2
    ∧ CupyPredict.run c3pred = NumbaPredict.run c3pred
    ∧ CupyUpdate.run c3in2 = NumbaUpdate.run c3in2 := by
  have hdx : c3in2.dx = 2 := rfl
  have hdz : c3in2.dz = 2 := rfl
  have hhP : ∀ i j : ℕ, i < c3in2.dx → j < c3in2.dx → c3in2.P i j = c3in2.P j i := by
    intro i j hi hj
    rw [hdx] at hi hj
    interval_cases i <;> interval_cases j <;> rfl
  have hhR : ∀ i j : ℕ, i < c3in2.dz → j < c3in2.dz → c3in2.R i j = c3in2.R j i := by
    intro i j hi hj
    rw [hdz] at hi hj
    interval_cases i <;> interval_cases j <;> rfl
  have h := c3_backend_agreement_amended c3pred c3in2 hdz hhP hhR
  exact ⟨hdz, h.1, h.2⟩
